import Mathlib

/-!
Verification of the crypto data pipeline: a collector job (crypto_etl.py),
a historical backfill job (crypto_historical_etl.py) and a forecaster
(bitcoin_prophet_forecast.py) sharing a relational store.  Timestamps and
dates are modelled as integers, numeric cell values as integers; SQL cell
values distinguish NULL from every concrete value.
-/

/-- A SQL cell value as stored in the database: NULL is distinct from every
number, string and timestamp. -/
inductive SqlVal where
  | null
  | num (q : Int)
  | txt (s : String)
  | time (t : Int)
deriving DecidableEq, Repr

/-- One row of the crypto_prices table, mirroring the row dict built by
fetch_crypto_data / fetch_historical_data.  Nullable source fields are
Options; `none` is persisted as SQL NULL by the loader. -/
structure PriceRow where
  timestamp : Int
  coin_id : String
  symbol : String
  name : String
  current_price_usd : Option Int
  market_cap_usd : Option Int
  total_volume_usd : Option Int
  price_change_24h : Option Int
  price_change_percentage_24h : Option Int
  circulating_supply : Option Int
  total_supply : Option Int
  ath : Option Int
  ath_date : Option Int
  atl : Option Int
  atl_date : Option Int
deriving DecidableEq, Repr

/-- The live crypto_prices table: its column names as reported by
information_schema (an empty list means the table does not exist) and its
rows.  -/
structure PricesTable where
  cols : List String
  rows : List PriceRow
deriving DecidableEq, Repr

/-- The fixed expected column list of create_table_if_not_exists. -/
def expected_columns : List String :=
  ["id", "timestamp", "coin_id", "symbol", "name", "current_price_usd",
   "market_cap_usd", "total_volume_usd", "price_change_24h",
   "price_change_percentage_24h", "circulating_supply", "total_supply",
   "ath", "ath_date", "atl", "atl_date", "created_at"]

/-- The condition under which create_table_if_not_exists keeps the table:
`existing_columns` is non-empty and every expected column is among them
(`all(col in existing_columns for col in expected_columns)`). -/
def schema_ok (t : PricesTable) : Bool :=
  !t.cols.isEmpty && expected_columns.all (fun c => t.cols.contains c)

/-- The schema reconciler: if the table is absent or some expected column is
missing, drop it and recreate it from the fixed DDL (rows are lost);
otherwise leave it untouched. -/
def create_table_if_not_exists (t : PricesTable) : PricesTable :=
  if schema_ok t then t else { cols := expected_columns, rows := [] }

/-- The natural key of a price row: (coin_id, timestamp). -/
def rowKey (r : PriceRow) : String × Int :=
  (r.coin_id, r.timestamp)

/-- One INSERT ... ON CONFLICT (coin_id, timestamp) DO NOTHING: if a row with
the same key exists the statement is a no-op, otherwise the row is appended. -/
def insert_one (rows : List PriceRow) (r : PriceRow) : List PriceRow :=
  if rows.any (fun x => rowKey x == rowKey r) then rows else rows ++ [r]

/-- executemany over the batch: each row's INSERT runs in order. -/
def insert_rows (rows : List PriceRow) (batch : List PriceRow) : List PriceRow :=
  batch.foldl insert_one rows

/-- insert_data of crypto_etl.py: run the batch of upserts against the table. -/
def insert_data (t : PricesTable) (batch : List PriceRow) : PricesTable :=
  { t with rows := insert_rows t.rows batch }

/-- insert_historical_data of crypto_historical_etl.py: the same upsert logic,
duplicated verbatim in the backfill script. -/
def insert_historical_data (t : PricesTable) (batch : List PriceRow) : PricesTable :=
  { t with rows := insert_rows t.rows batch }

/-- Number of stored rows carrying a given natural key. -/
def countKey (rows : List PriceRow) (k : String × Int) : Nat :=
  (rows.filter (fun x => rowKey x == k)).length

theorem schema_ok_iff (t : PricesTable) :
    schema_ok t = true ↔ (t.cols ≠ [] ∧ ∀ c ∈ expected_columns, c ∈ t.cols) := by
  simp [schema_ok, List.isEmpty_iff, List.all_eq_true]

/-- C1 counterexample: a table holding every expected column plus an extra one
passes the reconciler's check, so it is kept and its column set is not the
expected list — the claim that any difference triggers a drop/recreate fails. -/
theorem schema_reconciler_exact_cols_cex :
    (create_table_if_not_exists
        { cols := expected_columns ++ ["extra"], rows := [] }).cols
      ≠ expected_columns := by
  decide

/-- C1 amended: after the reconciler runs every expected column is present; a
table that is absent or missing some expected column is dropped and recreated
from the fixed DDL (so its columns are then exactly the expected list), while a
table already containing all expected columns — extras included — is left
unchanged. -/
theorem schema_reconciler_superset (t : PricesTable) :
    (∀ c ∈ expected_columns, c ∈ (create_table_if_not_exists t).cols) ∧
    ((t.cols = [] ∨ ¬ (∀ c ∈ expected_columns, c ∈ t.cols)) →
      create_table_if_not_exists t = { cols := expected_columns, rows := [] }) ∧
    ((t.cols ≠ [] ∧ (∀ c ∈ expected_columns, c ∈ t.cols)) →
      create_table_if_not_exists t = t) := by
  by_cases h : schema_ok t = true
  · have hh := (schema_ok_iff t).mp h
    refine ⟨?_, ?_, ?_⟩
    · intro c hc
      simpa [create_table_if_not_exists, h] using hh.2 c hc
    · intro hbad
      rcases hbad with hnil | hmiss
      · exact absurd hnil hh.1
      · exact absurd hh.2 hmiss
    · intro _
      simp [create_table_if_not_exists, h]
  · have hh : ¬ (t.cols ≠ [] ∧ ∀ c ∈ expected_columns, c ∈ t.cols) := by
      intro hc
      exact h ((schema_ok_iff t).mpr hc)
    refine ⟨?_, ?_, ?_⟩
    · intro c hc
      simp [create_table_if_not_exists, h]
      exact hc
    · intro _
      simp [create_table_if_not_exists, h]
    · intro hc
      exact absurd hc hh

/-- C1 amended, witness: a table having only an id column is recreated with
exactly the expected columns. -/
theorem schema_reconciler_superset_witness :
    create_table_if_not_exists { cols := ["id"], rows := [] }
      = { cols := expected_columns, rows := [] } :=
  (schema_reconciler_superset { cols := ["id"], rows := [] }).2.1
    (Or.inr (by decide))

/-- A concrete price row used to instantiate witnesses. -/
def sampleRow : PriceRow :=
  { timestamp := 1700000000, coin_id := "bitcoin", symbol := "btc",
    name := "Bitcoin", current_price_usd := some 50000,
    market_cap_usd := some 900, total_volume_usd := some 100,
    price_change_24h := none, price_change_percentage_24h := none,
    circulating_supply := none, total_supply := none,
    ath := some 69000, ath_date := some 1636329600, atl := some 67,
    atl_date := some 1374191400 }

theorem countKey_eq_zero_iff (rows : List PriceRow) (k : String × Int) :
    countKey rows k = 0 ↔ rows.any (fun x => rowKey x == k) = false := by
  simp [countKey, List.length_eq_zero, List.filter_eq_nil_iff, List.any_eq_false]

theorem countKey_append (l₁ l₂ : List PriceRow) (k : String × Int) :
    countKey (l₁ ++ l₂) k = countKey l₁ k + countKey l₂ k := by
  simp [countKey, List.filter_append]

/-- C2: the upsert is idempotent on the natural key — inserting a row whose
(coin_id, timestamp) already exists changes nothing; loading the same row
twice equals loading it once; starting from a table without the key, two loads
leave exactly one stored row; and the backfill loader behaves identically. -/
theorem upsert_idempotent (t : PricesTable) (r : PriceRow) :
    ((∃ x ∈ t.rows, rowKey x = rowKey r) → insert_data t [r] = t) ∧
    insert_data (insert_data t [r]) [r] = insert_data t [r] ∧
    (countKey t.rows (rowKey r) = 0 →
      countKey (insert_data (insert_data t [r]) [r]).rows (rowKey r) = 1) ∧
    insert_historical_data t [r] = insert_data t [r] := by
  refine ⟨?_, ?_, ?_, rfl⟩
  · rintro ⟨x, hx, hk⟩
    have hany : t.rows.any (fun x => rowKey x == rowKey r) = true :=
      List.any_eq_true.mpr ⟨x, hx, by simp [hk]⟩
    simp [insert_data, insert_rows, List.foldl, insert_one, hany]
  · by_cases hany : t.rows.any (fun x => rowKey x == rowKey r) = true
    · simp [insert_data, insert_rows, List.foldl, insert_one, hany]
    · have hfalse : t.rows.any (fun x => rowKey x == rowKey r) = false :=
        Bool.eq_false_iff.mpr hany
      have happ : (t.rows ++ [r]).any (fun x => rowKey x == rowKey r) = true := by
        simp [List.any_append]
      simp [insert_data, insert_rows, List.foldl, insert_one, hfalse, happ]
  · intro h0
    have hfalse := (countKey_eq_zero_iff t.rows (rowKey r)).mp h0
    have happ : (t.rows ++ [r]).any (fun x => rowKey x == rowKey r) = true := by
      simp [List.any_append]
    simp [insert_data, insert_rows, List.foldl, insert_one, hfalse, happ,
          countKey_append, h0, countKey]
    simpa using List.any_eq_false.mp hfalse

/-- C2 witness: loading the sample row twice into an empty table stores it
exactly once. -/
theorem upsert_idempotent_witness :
    insert_data (insert_data { cols := expected_columns, rows := [] } [sampleRow])
        [sampleRow]
      = insert_data { cols := expected_columns, rows := [] } [sampleRow] ∧
    countKey (insert_data
        (insert_data { cols := expected_columns, rows := [] } [sampleRow])
        [sampleRow]).rows (rowKey sampleRow) = 1 :=
  ⟨(upsert_idempotent { cols := expected_columns, rows := [] } sampleRow).2.1,
   (upsert_idempotent { cols := expected_columns, rows := [] } sampleRow).2.2.1
     (by decide)⟩

/-- Result of a batch load attempted inside one transaction: the table state
the caller sees afterwards, and whether the loader re-raised an error. -/
structure TxResult where
  table : PricesTable
  error : Bool
deriving DecidableEq, Repr

/-- executemany with a failure oracle `ok`: the rows' INSERTs run in order and
the first failing one aborts the batch, yielding no result to commit. -/
def run_batch (rows batch : List PriceRow) (ok : PriceRow → Bool) :
    Option (List PriceRow) :=
  match batch with
  | [] => some rows
  | r :: rest => if ok r then run_batch (insert_one rows r) rest ok else none

/-- insert_data viewed as one transaction: on success the whole batch is
committed at the single conn.commit(); on any failure conn.rollback() restores
the prior table and the exception is re-raised (`error := true`). -/
def insert_data_tx (t : PricesTable) (batch : List PriceRow)
    (ok : PriceRow → Bool) : TxResult :=
  match run_batch t.rows batch ok with
  | some rows => { table := { t with rows := rows }, error := false }
  | none => { table := t, error := true }

/-- One collector run (main of crypto_etl.py), returning the final table and
the process exit status: an empty fetch or a failed connection logs and
returns (exit 0); otherwise the reconciler runs and its result is committed,
then the batch is loaded — an insert failure is re-raised by insert_data,
logged by main and re-raised again, terminating the process (exit 1). -/
def collector_main (t : PricesTable) (conn_ok : Bool) (fetched : List PriceRow)
    (ok : PriceRow → Bool) : PricesTable × Nat :=
  if fetched.isEmpty then (t, 0)
  else if !conn_ok then (t, 0)
  else
    let t1 := create_table_if_not_exists t
    let res := insert_data_tx t1 fetched ok
    (res.table, if res.error then 1 else 0)

/-- One backfill run (main of crypto_historical_etl.py): a failed connection
returns (exit 0), and every exception inside the body — an insert failure
included — is caught by main's broad except and only logged, so the process
always returns normally with exit status 0. -/
def backfill_main (t : PricesTable) (conn_ok : Bool) (fetched : List PriceRow)
    (ok : PriceRow → Bool) : PricesTable × Nat :=
  if !conn_ok then (t, 0)
  else if fetched.isEmpty then (t, 0)
  else
    let res := insert_data_tx t fetched ok
    (res.table, 0)

theorem run_batch_eq_none_iff (batch : List PriceRow) :
    ∀ (rows : List PriceRow) (ok : PriceRow → Bool),
      run_batch rows batch ok = none ↔ ∃ r ∈ batch, ok r = false := by
  induction batch with
  | nil => intro rows ok; simp [run_batch]
  | cons r rest ih =>
    intro rows ok
    by_cases h : ok r = true
    · simp [run_batch, h, ih]
    · have hf : ok r = false := Bool.eq_false_iff.mpr h
      simp [run_batch, hf]

theorem run_batch_all_ok (batch : List PriceRow) :
    ∀ (rows : List PriceRow) (ok : PriceRow → Bool),
      (∀ r ∈ batch, ok r = true) →
      run_batch rows batch ok = some (insert_rows rows batch) := by
  induction batch with
  | nil => intro rows ok _; simp [run_batch, insert_rows]
  | cons r rest ih =>
    intro rows ok h
    have hr := h r (by simp)
    have : insert_rows rows (r :: rest) = insert_rows (insert_one rows r) rest := rfl
    rw [this]
    simpa [run_batch, hr] using ih (insert_one rows r) ok
      (fun x hx => h x (by simp [hx]))

/-- C5 counterexample: in the backfill job a failing batch makes the loader
re-raise the error, but main's broad except swallows it and the process exits
with status 0 — the exception does not propagate to terminate the job. -/
theorem batch_tx_propagation_cex :
    (insert_data_tx { cols := expected_columns, rows := [] } [sampleRow]
        (fun _ => false)).error = true ∧
    (backfill_main { cols := expected_columns, rows := [] } true [sampleRow]
        (fun _ => false)).2 = 0 := by
  decide

/-- C5 amended: each batch is one transaction — if every insert succeeds the
batch is committed exactly as insert_data computes it; if any insert fails the
whole batch is rolled back (the caller's table is unchanged) and the error is
re-raised by the loader; the collector's main lets it propagate and exits 1,
while the backfill's main catches and logs it and exits 0. -/
theorem batch_tx_amended (t : PricesTable) (batch : List PriceRow)
    (ok : PriceRow → Bool) :
    ((∀ r ∈ batch, ok r = true) →
      insert_data_tx t batch ok = { table := insert_data t batch, error := false }) ∧
    ((∃ r ∈ batch, ok r = false) →
      (insert_data_tx t batch ok).table = t ∧
      (insert_data_tx t batch ok).error = true ∧
      (collector_main t true batch ok).2 = 1 ∧
      (backfill_main t true batch ok).2 = 0) := by
  constructor
  · intro h
    simp [insert_data_tx, run_batch_all_ok batch t.rows ok h, insert_data]
  · intro h
    have hnone : run_batch t.rows batch ok = none :=
      (run_batch_eq_none_iff batch t.rows ok).mpr h
    have hnone1 : run_batch (create_table_if_not_exists t).rows batch ok = none :=
      (run_batch_eq_none_iff batch _ ok).mpr h
    obtain ⟨r, hr, _⟩ := h
    have hne : batch.isEmpty = false := by
      cases batch with
      | nil => cases hr
      | cons a l => rfl
    refine ⟨?_, ?_, ?_, ?_⟩
    · simp [insert_data_tx, hnone]
    · simp [insert_data_tx, hnone]
    · simp [collector_main, hne, insert_data_tx, hnone1]
    · simp [backfill_main, hne]

/-- C5 amended, witness: a fully succeeding singleton batch is committed as
insert_data computes it. -/
theorem batch_tx_amended_witness :
    insert_data_tx { cols := expected_columns, rows := [] } [sampleRow]
        (fun _ => true)
      = { table := insert_data { cols := expected_columns, rows := [] }
            [sampleRow],
          error := false } :=
  (batch_tx_amended { cols := expected_columns, rows := [] } [sampleRow]
    (fun _ => true)).1 (by decide)

/-- A second concrete price row, one observation later than sampleRow. -/
def sampleRow2 : PriceRow :=
  { sampleRow with timestamp := 1700000100 }

theorem insert_one_append (rows : List PriceRow) (r : PriceRow) :
    ∃ rest, insert_one rows r = rows ++ rest := by
  by_cases h : rows.any (fun x => rowKey x == rowKey r) = true
  · exact ⟨[], by simp [insert_one, h]⟩
  · exact ⟨[r], by simp [insert_one, h]⟩

theorem insert_rows_append (batch : List PriceRow) :
    ∀ rows : List PriceRow, ∃ rest, insert_rows rows batch = rows ++ rest := by
  induction batch with
  | nil => intro rows; exact ⟨[], by simp [insert_rows]⟩
  | cons r bs ih =>
    intro rows
    obtain ⟨s, hs⟩ := insert_one_append rows r
    obtain ⟨rest, hrest⟩ := ih (insert_one rows r)
    refine ⟨s ++ rest, ?_⟩
    have hstep : insert_rows rows (r :: bs) = insert_rows (insert_one rows r) bs := rfl
    rw [hstep, hrest, hs, List.append_assoc]

theorem run_batch_some_append (batch : List PriceRow) :
    ∀ (rows v : List PriceRow) (ok : PriceRow → Bool),
      run_batch rows batch ok = some v → ∃ rest, v = rows ++ rest := by
  induction batch with
  | nil =>
    intro rows v ok h
    simp [run_batch] at h
    exact ⟨[], by simp [h]⟩
  | cons r bs ih =>
    intro rows v ok h
    by_cases hr : ok r = true
    · simp [run_batch, hr] at h
      obtain ⟨s, hs⟩ := insert_one_append rows r
      obtain ⟨rest, hrest⟩ := ih (insert_one rows r) v ok h
      exact ⟨s ++ rest, by rw [hrest, hs, List.append_assoc]⟩
    · simp [run_batch, hr] at h

/-- C9 counterexample: a collector run against a drifted table (an expected
column is missing) drops the whole table, deleting the previously stored
row — loading does not merely add rows. -/
theorem frame_no_delete_cex :
    sampleRow ∈ (PricesTable.mk ["id"] [sampleRow]).rows ∧
    sampleRow ∉ (collector_main (PricesTable.mk ["id"] [sampleRow]) true
        [sampleRow2] (fun _ => true)).1.rows := by
  decide

/-- C9 amended: the loaders themselves never update or delete — both
insert_data and insert_historical_data leave the prior rows in place as an
unchanged initial segment and only append, and a backfill run preserves them
likewise; a collector run preserves them provided the table passes the schema
check, but on schema drift the reconciler drops the table and all prior rows
are lost. -/
theorem frame_amended (t : PricesTable) (batch : List PriceRow)
    (conn_ok : Bool) (ok : PriceRow → Bool) :
    (∃ rest, (insert_data t batch).rows = t.rows ++ rest) ∧
    (∃ rest, (insert_historical_data t batch).rows = t.rows ++ rest) ∧
    (∃ rest, ((backfill_main t conn_ok batch ok).1).rows = t.rows ++ rest) ∧
    (schema_ok t = true →
      ∃ rest, ((collector_main t conn_ok batch ok).1).rows = t.rows ++ rest) := by
  refine ⟨insert_rows_append batch t.rows, insert_rows_append batch t.rows, ?_, ?_⟩
  · by_cases hc : conn_ok = true
    · by_cases he : batch.isEmpty = true
      · exact ⟨[], by simp [backfill_main, hc, he]⟩
      · cases hrb : run_batch t.rows batch ok with
        | some v =>
          obtain ⟨rest, hrest⟩ := run_batch_some_append batch t.rows v ok hrb
          exact ⟨rest, by simp [backfill_main, hc, he, insert_data_tx, hrb, hrest]⟩
        | none =>
          exact ⟨[], by simp [backfill_main, hc, he, insert_data_tx, hrb]⟩
    · exact ⟨[], by simp [backfill_main, hc]⟩
  · intro hs
    have hkeep : create_table_if_not_exists t = t := by
      simp [create_table_if_not_exists, hs]
    by_cases he : batch.isEmpty = true
    · exact ⟨[], by simp [collector_main, he]⟩
    · by_cases hc : conn_ok = true
      · cases hrb : run_batch t.rows batch ok with
        | some v =>
          obtain ⟨rest, hrest⟩ := run_batch_some_append batch t.rows v ok hrb
          exact ⟨rest, by
            simp [collector_main, hc, he, hkeep, insert_data_tx, hrb, hrest]⟩
        | none =>
          exact ⟨[], by simp [collector_main, hc, he, hkeep, insert_data_tx, hrb]⟩
      · exact ⟨[], by simp [collector_main, hc, he]⟩

/-- C9 amended, witness: a collector run against a conforming table keeps the
stored row as an initial segment. -/
theorem frame_amended_witness :
    ∃ rest, ((collector_main (PricesTable.mk expected_columns [sampleRow]) true
        [sampleRow2] (fun _ => true)).1).rows = [sampleRow] ++ rest :=
  (frame_amended (PricesTable.mk expected_columns [sampleRow]) [sampleRow2]
    true (fun _ => true)).2.2.2 (by decide)

/-- The five database environment variables as os.getenv returns them:
`none` when unset. -/
structure Env where
  host : Option String
  port : Option String
  dbname : Option String
  user : Option String
  password : Option String
deriving DecidableEq, Repr

/-- Python truthiness on an optional string: None and the empty string are
falsy. -/
def falsy : Option String → Bool
  | none => true
  | some s => s == ""

/-- The dict of bitcoin_prophet_forecast.py line 38, in order. -/
def env_pairs (e : Env) : List (String × Option String) :=
  [("host", e.host), ("port", e.port), ("dbname", e.dbname),
   ("user", e.user), ("password", e.password)]

/-- The list of missing variable names the forecaster logs. -/
def missing_vars (e : Env) : List String :=
  ((env_pairs e).filter (fun p => falsy p.2)).map (fun p => p.1)

/-- `all([host, port, dbname, user, password])` of the forecaster. -/
def all_vars_present (e : Env) : Bool :=
  (env_pairs e).all (fun p => !falsy p.2)

/-- What a job does at startup about its environment: whether it exits there
(and with which status) and which missing-variable names it logs. -/
structure StartupResult where
  exitCode : Option Nat
  loggedMissing : List String
deriving DecidableEq, Repr

/-- Module-level validation of bitcoin_prophet_forecast.py: when any variable
is falsy it logs the missing names and calls exit(1); otherwise execution
continues. -/
def forecaster_startup (e : Env) : StartupResult :=
  if all_vars_present e then { exitCode := none, loggedMissing := [] }
  else { exitCode := some 1, loggedMissing := missing_vars e }

/-- Startup of crypto_etl.py: the variables are only copied into DB_CONFIG;
no validation is performed, nothing is logged, execution always continues. -/
def collector_startup (_e : Env) : StartupResult :=
  { exitCode := none, loggedMissing := [] }

/-- Startup of crypto_historical_etl.py: identical to the collector — the
variables are copied into DB_CONFIG without any validation. -/
def backfill_startup (_e : Env) : StartupResult :=
  { exitCode := none, loggedMissing := [] }

/-- An environment whose password variable is unset. -/
def envMissingPassword : Env :=
  { host := some "localhost", port := some "5432", dbname := some "crypto",
    user := some "etl", password := none }

/-- C4 counterexample: with the password variable absent, the collector does
not exit at startup, logs no missing-variable list, and a run whose database
connection then fails still exits with status 0 — not every job exits
non-zero with the missing list. -/
theorem env_validation_cex :
    all_vars_present envMissingPassword = false ∧
    (collector_startup envMissingPassword).exitCode = none ∧
    (collector_startup envMissingPassword).loggedMissing = [] ∧
    (collector_main { cols := expected_columns, rows := [] } false [sampleRow]
        (fun _ => true)).2 = 0 := by
  decide

/-- C4 amended: only the forecaster validates the environment — with any
variable missing it exits immediately with status 1 and logs the missing
names; the collector and backfill jobs perform no validation at startup, and
when their database connection fails they log and return, exiting with
status 0 and no missing-variable list. -/
theorem env_validation_amended (e : Env) :
    (all_vars_present e = false →
      forecaster_startup e
        = { exitCode := some 1, loggedMissing := missing_vars e }) ∧
    collector_startup e = { exitCode := none, loggedMissing := [] } ∧
    backfill_startup e = { exitCode := none, loggedMissing := [] } ∧
    (∀ (t : PricesTable) (fetched : List PriceRow) (ok : PriceRow → Bool),
      (collector_main t false fetched ok).2 = 0 ∧
      (backfill_main t false fetched ok).2 = 0) := by
  refine ⟨?_, rfl, rfl, ?_⟩
  · intro h
    simp [forecaster_startup, h]
  · intro t fetched ok
    constructor
    · by_cases he : fetched.isEmpty = true
      · simp [collector_main, he]
      · simp [collector_main, he]
    · simp [backfill_main]

/-- C4 amended, witness: the forecaster exits 1 at startup on the environment
missing its password, logging that name. -/
theorem env_validation_amended_witness :
    forecaster_startup envMissingPassword
      = { exitCode := some 1, loggedMissing := missing_vars envMissingPassword } :=
  (env_validation_amended envMissingPassword).1 (by decide)

/-- One row of the crypto_predictions table (pre-existing in the database):
a target date ds, the estimate with its band, the asset symbol, and a
nullable creation time. -/
structure ForecastRow where
  ds : Int
  yhat : Int
  yhat_lower : Int
  yhat_upper : Int
  symbol : String
  created_at : Option Int
deriving DecidableEq, Repr

/-- cleanup_old_forecasts: DELETE FROM crypto_predictions WHERE symbol = BTC
AND created_at < now minus the retention interval in days (days_to_keep is 30
both by default and at the call site); a NULL created_at never satisfies the
comparison, so such rows are kept. -/
def cleanup_old_forecasts (tbl : List ForecastRow) (now : Int)
    (days_to_keep : Int) : List ForecastRow :=
  tbl.filter (fun r =>
    !(r.symbol == "BTC" &&
      (match r.created_at with
       | some c => decide (c < now - days_to_keep)
       | none => false)))

/-- C3: after the pruner runs with the 30-day threshold, no BTC row remains
whose creation time is older than 30 days before the run time. -/
theorem cleanup_retention (tbl : List ForecastRow) (now : Int) :
    ∀ r ∈ cleanup_old_forecasts tbl now 30, r.symbol = "BTC" →
      ∀ c, r.created_at = some c → ¬ c < now - 30 := by
  intro r hr hsym c hc
  simp [cleanup_old_forecasts, List.mem_filter, hsym, hc] at hr
  have h2 := hr.2
  omega

/-- A recent BTC forecast row: created 5 days before run time 100. -/
def keptForecastRow : ForecastRow :=
  { ds := 0, yhat := 100, yhat_lower := 90, yhat_upper := 110,
    symbol := "BTC", created_at := some 95 }

/-- C3 witness: the 5-day-old BTC row survives the pruner and, by the
retention theorem, is indeed not older than the threshold. -/
theorem cleanup_retention_witness :
    keptForecastRow ∈ cleanup_old_forecasts [keptForecastRow] 100 30 ∧
    ¬ (95 : Int) < 100 - 30 :=
  ⟨by decide,
   cleanup_retention [keptForecastRow] 100 keptForecastRow (by decide) rfl
     95 rfl⟩

/-- Modelled from the spec: the prophet package is not part of this
repository's sources.  Per the spec the fitted seasonal model yields, for any
date, a point estimate together with a lower/upper uncertainty band around it
("point + interval predictions"). -/
structure ProphetModel where
  point : Int → Int
  bandLo : Int → Nat
  bandHi : Int → Nat

/-- One row of Prophet's forecast output frame. -/
structure PredRow where
  ds : Int
  yhat : Int
  yhat_lower : Int
  yhat_upper : Int
deriving DecidableEq, Repr

/-- The last observed date of the fitted history: the price series is read
ORDER BY timestamp, so it is the final element. -/
def lastDate (hist : List Int) : Int :=
  hist.getLast?.getD 0

/-- Modelled from the spec: model.make_future_dataframe(periods) of the
prophet package — the historical dates followed by `periods` consecutive
calendar days beyond the last observed date. -/
def make_future_dataframe (hist : List Int) (periods : Nat) : List Int :=
  hist ++ (List.range periods).map (fun (i : Nat) => lastDate hist + (i : Int) + 1)

/-- Modelled from the spec: model.predict — one prediction row per requested
date, each a point estimate bracketed by its uncertainty band. -/
def predict (m : ProphetModel) (future : List Int) : List PredRow :=
  future.map (fun d =>
    { ds := d, yhat := m.point d,
      yhat_lower := m.point d - (m.bandLo d : Int),
      yhat_upper := m.point d + (m.bandHi d : Int) })

/-- forecast.tail(30): the last 30 rows of the forecast frame. -/
def pdTail (n : Nat) (l : List PredRow) : List PredRow :=
  l.drop (l.length - n)

/-- The future_forecast frame of bitcoin_prophet_forecast.py: the last 30
rows of the full fitted+predicted frame. -/
def future_forecast (m : ProphetModel) (hist : List Int) : List PredRow :=
  pdTail 30 (predict m (make_future_dataframe hist 30))

/-- save_forecast_to_db: each future row is appended to crypto_predictions
tagged with symbol BTC and created_at = datetime.now(). -/
def save_forecast_to_db (tbl : List ForecastRow) (ff : List PredRow)
    (now : Int) : List ForecastRow :=
  tbl ++ ff.map (fun p =>
    { ds := p.ds, yhat := p.yhat, yhat_lower := p.yhat_lower,
      yhat_upper := p.yhat_upper, symbol := "BTC", created_at := some now })

/-- The forecaster pipeline after fitting: build the future frame, predict,
keep the last 30 rows, append them to crypto_predictions. -/
def run_forecaster (m : ProphetModel) (hist : List Int)
    (tbl : List ForecastRow) (now : Int) : List ForecastRow :=
  save_forecast_to_db tbl (future_forecast m hist) now

theorem drop_len_append {α : Type} (l₁ l₂ : List α) :
    (l₁ ++ l₂).drop l₁.length = l₂ := by
  induction l₁ with
  | nil => simp
  | cons a l ih =>
    simp only [List.cons_append, List.length_cons, List.drop_succ_cons]
    exact ih

theorem pdTail_append (l₁ l₂ : List PredRow) (h : l₂.length = 30) :
    pdTail 30 (l₁ ++ l₂) = l₂ := by
  have hl : (l₁ ++ l₂).length - 30 = l₁.length := by
    simp [List.length_append, h]
  rw [pdTail, hl, drop_len_append]

theorem predict_append (m : ProphetModel) (a b : List Int) :
    predict m (a ++ b) = predict m a ++ predict m b := by
  simp [predict]

theorem future_forecast_eq (m : ProphetModel) (hist : List Int) :
    future_forecast m hist
      = predict m ((List.range 30).map (fun (i : Nat) => lastDate hist + (i : Int) + 1)) := by
  rw [future_forecast, make_future_dataframe, predict_append]
  refine pdTail_append _ _ ?_
  rw [predict, List.length_map, List.length_map, List.length_range]

/-- C6: for every non-empty history the future-forecast output has exactly 30
rows, dated the 30 consecutive calendar days after the last observed date, and
every row's point estimate lies between its lower and upper bounds. -/
theorem forecast_shape (m : ProphetModel) (hist : List Int) (_hne : hist ≠ []) :
    (future_forecast m hist).length = 30 ∧
    (future_forecast m hist).map (fun p => p.ds)
      = (List.range 30).map (fun (i : Nat) => lastDate hist + (i : Int) + 1) ∧
    ∀ p ∈ future_forecast m hist,
      p.yhat_lower ≤ p.yhat ∧ p.yhat ≤ p.yhat_upper := by
  rw [future_forecast_eq]
  refine ⟨?_, by simp [predict], ?_⟩
  · rw [predict, List.length_map, List.length_map, List.length_range]
  · intro p hp
    rw [predict] at hp
    simp [List.mem_map] at hp
    obtain ⟨d, -, rfl⟩ := hp
    constructor <;> simp

/-- A concrete model instance for witnesses: constant point 100, band 5/7. -/
def constModel : ProphetModel :=
  { point := fun _ => 100, bandLo := fun _ => 5, bandHi := fun _ => 7 }

/-- C6 witness: a one-point history yields a 30-row future forecast. -/
theorem forecast_shape_witness :
    ([0] : List Int) ≠ [] ∧ (future_forecast constModel [0]).length = 30 :=
  ⟨by decide, (forecast_shape constModel [0] (by decide)).1⟩

/-- The 10-day consecutive bitcoin history of the end-to-end scenario,
starting at day d0. -/
def hist10 (d0 : Int) : List Int :=
  (List.range 10).map (fun (i : Nat) => d0 + (i : Int))

theorem lastDate_hist10 (d0 : Int) : lastDate (hist10 d0) = d0 + 9 := by
  rfl

/-- C8 counterexample: in the 10-day scenario starting at day 0 the saved
prediction rows extend 30 days past day 9 — a row dated day 20 exists, which
lies outside "the 10 days following the last historical date" (days 10-19). -/
theorem end_to_end_dates_cex :
    ∃ r ∈ run_forecaster constModel (hist10 0) [] 1000, (19 : Int) < r.ds := by
  decide

/-- The row save_forecast_to_db builds from one future prediction. -/
def toForecastRow (now : Int) (p : PredRow) : ForecastRow :=
  { ds := p.ds, yhat := p.yhat, yhat_lower := p.yhat_lower,
    yhat_upper := p.yhat_upper, symbol := "BTC", created_at := some now }

/-- C8 amended: given 10 historical rows on consecutive days the forecaster
appends exactly 30 new prediction rows, dated the 30 consecutive days
following the last historical date, each tagged with symbol BTC and a
non-null creation time. -/
theorem end_to_end_amended (m : ProphetModel) (tbl : List ForecastRow)
    (d0 now : Int) :
    ∃ newRows : List ForecastRow,
      run_forecaster m (hist10 d0) tbl now = tbl ++ newRows ∧
      newRows.length = 30 ∧
      newRows.map (fun r => r.ds)
        = (List.range 30).map (fun (i : Nat) => d0 + 9 + (i : Int) + 1) ∧
      ∀ r ∈ newRows, r.symbol = "BTC" ∧ r.created_at ≠ none := by
  refine ⟨(future_forecast m (hist10 d0)).map (toForecastRow now),
    rfl, ?_, ?_, ?_⟩
  · rw [List.length_map, future_forecast_eq, predict, List.length_map,
      List.length_map, List.length_range]
  · rw [List.map_map, future_forecast_eq, lastDate_hist10, predict,
      List.map_map, List.map_map]
    rfl
  · intro r hr
    simp [List.mem_map] at hr
    obtain ⟨p, -, rfl⟩ := hr
    exact ⟨rfl, by simp [toForecastRow]⟩

/-- The ath_date/atl_date extraction of fetch_crypto_data: the raw JSON field
is an optional {usd: ...} object holding an optional string.  The date is
parsed only when the object exists and holds a truthy usd entry; a parser
failure (modelled by `to_datetime` returning none for the caught exception)
leaves the value None. -/
def parse_market_date (to_datetime : String → Option Int)
    (field : Option (Option String)) : Option Int :=
  match field with
  | some (some s) => if s == "" then none else to_datetime s
  | _ => none

/-- Row construction of fetch_historical_data: market cap and volume are taken
from the parallel arrays when index i is in range and are None otherwise, and
every field the historical endpoint does not deliver is None. -/
def historical_row (ts price : Int) (i : Nat)
    (market_caps volumes : List Int) : PriceRow :=
  { timestamp := ts, coin_id := "bitcoin", symbol := "btc", name := "Bitcoin",
    current_price_usd := some price,
    market_cap_usd := market_caps[i]?,
    total_volume_usd := volumes[i]?,
    price_change_24h := none, price_change_percentage_24h := none,
    circulating_supply := none, total_supply := none,
    ath := none, ath_date := none, atl := none, atl_date := none }

/-- The value conversion of insert_data for a numeric column: pd.isna(val)
becomes None, i.e. SQL NULL; any value is passed through. -/
def persistVal : Option Int → SqlVal
  | none => SqlVal.null
  | some v => SqlVal.num v

/-- The value conversion of insert_data for a timestamp column. -/
def persistDate : Option Int → SqlVal
  | none => SqlVal.null
  | some v => SqlVal.time v

/-- C7: an absent or unparseable source field is persisted as a true SQL
NULL — the collector's ath/atl date when the field is missing, empty or fails
to parse, and every field the historical endpoint lacks — and SQL NULL is
distinct from zero and from the empty string. -/
theorem null_preservation (td : String → Option Int)
    (field : Option (Option String)) (ts price : Int) (i : Nat)
    (mc vol : List Int) :
    ((field = none ∨ field = some none ∨
        (∃ s, field = some (some s) ∧ (s = "" ∨ td s = none))) →
      persistDate (parse_market_date td field) = SqlVal.null) ∧
    (mc.length ≤ i →
      persistVal (historical_row ts price i mc vol).market_cap_usd
        = SqlVal.null) ∧
    (vol.length ≤ i →
      persistVal (historical_row ts price i mc vol).total_volume_usd
        = SqlVal.null) ∧
    persistVal (historical_row ts price i mc vol).price_change_24h
      = SqlVal.null ∧
    persistVal (historical_row ts price i mc vol).circulating_supply
      = SqlVal.null ∧
    persistVal (historical_row ts price i mc vol).total_supply = SqlVal.null ∧
    persistVal (historical_row ts price i mc vol).ath = SqlVal.null ∧
    persistDate (historical_row ts price i mc vol).ath_date = SqlVal.null ∧
    SqlVal.null ≠ SqlVal.num 0 ∧ SqlVal.null ≠ SqlVal.txt "" := by
  refine ⟨?_, ?_, ?_, rfl, rfl, rfl, rfl, rfl, by simp, by simp⟩
  · rintro (rfl | rfl | ⟨s, rfl, hs | hs⟩)
    · rfl
    · rfl
    · simp [parse_market_date, hs, persistDate]
    · by_cases hse : (s == "") = true
      · simp [parse_market_date, hse, persistDate]
      · simp [parse_market_date, hse, hs, persistDate]
  · intro h
    have hnone : mc[i]? = none := List.getElem?_eq_none h
    simp [historical_row, hnone, persistVal]
  · intro h
    have hnone : vol[i]? = none := List.getElem?_eq_none h
    simp [historical_row, hnone, persistVal]

/-- C7 witness: an unparseable ath_date string and an out-of-range market cap
are both persisted as SQL NULL. -/
theorem null_preservation_witness :
    persistDate (parse_market_date (fun _ => none) (some (some "not-a-date")))
      = SqlVal.null ∧
    persistVal (historical_row 0 1 5 [] []).market_cap_usd = SqlVal.null :=
  ⟨(null_preservation (fun _ => none) (some (some "not-a-date")) 0 1 5 [] []).1
     (Or.inr (Or.inr ⟨"not-a-date", rfl, Or.inr rfl⟩)),
   (null_preservation (fun _ => none) (some (some "not-a-date")) 0 1 5 [] []).2.1
     (by decide)⟩

/-- check_current_data: the count of crypto_prices rows with
coin_id = bitcoin. -/
def check_current_data (t : PricesTable) : Nat :=
  (t.rows.filter (fun r => r.coin_id == "bitcoin")).length

/-- The window selection of the backfill main:
`days_to_fetch = 30 if current_count < 30 else 7`. -/
def days_to_fetch (current_count : Nat) : Nat :=
  if current_count < 30 then 30 else 7

/-- C10: a run seeing fewer than 30 stored bitcoin rows requests 30 days of
history, and a run seeing 30 or more requests exactly 7 days. -/
theorem backfill_window (t : PricesTable) :
    (check_current_data t < 30 → days_to_fetch (check_current_data t) = 30) ∧
    (30 ≤ check_current_data t → days_to_fetch (check_current_data t) = 7) := by
  constructor
  · intro h
    simp [days_to_fetch, h]
  · intro h
    simp [days_to_fetch, Nat.not_lt.mpr h]

/-- C10 witness: an empty table holds 0 bitcoin rows, so 30 days are
requested. -/
theorem backfill_window_witness :
    days_to_fetch (check_current_data { cols := expected_columns, rows := [] })
      = 30 :=
  (backfill_window { cols := expected_columns, rows := [] }).1 (by decide)
